import Mathlib

set_option linter.unusedVariables false

namespace Wraith

/-!
Shallow embedding of the wraith reverse-proxy traffic core:
the admission controller (`src/rate_limiter.rs`), the upstream manager and
load balancer (`src/proxy.rs`), and the router (`src/router.rs`).

Time is modelled in whole seconds (`Nat`); a Rust `Instant` becomes the
number of seconds since an arbitrary epoch, and a `Duration` a number of
seconds.  IP addresses are abstract identifiers with decidable equality
(`Nat`); the configured whitelist/blacklist entries are `Vec<String>` values
that the code parses with `str::parse::<IpAddr>`, so each entry is embedded
as the `Option IpAddr` result of that parse (an unparseable entry is `none`
and can never equal a client address, exactly as in the code).
-/

abbrev IpAddr := Nat

/-- Fields of `RateLimitConfig` as used by `src/rate_limiter.rs` (the struct
itself is referenced from `crate::config` but its fields are pinned by every
use site and by the test module at the bottom of `rate_limiter.rs`). -/
structure RateLimitConfig where
  enabled : Bool
  requests_per_minute : Nat
  burst : Nat
  max_request_size : Nat
  whitelist : List (Option IpAddr)
  blacklist : List (Option IpAddr)
  auto_block_enabled : Bool
  block_duration : Nat
deriving DecidableEq

/-- Fields of `DdosConfig` as used by `src/rate_limiter.rs`. -/
structure DdosConfig where
  enabled : Bool
  max_connections_per_ip : Nat
  connection_rate_limit : Nat
  packet_rate_limit : Nat
  window_size : Nat
deriving DecidableEq

/-- Source `BlockReason` from `src/rate_limiter.rs`. -/
inductive BlockReason where
  | RateLimit
  | TooManyConnections
  | DdosDetection
  | Blacklisted
deriving DecidableEq

/-- Source `BlockedClient` from `src/rate_limiter.rs`. -/
structure BlockedClient where
  blocked_until : Nat
  reason : BlockReason
  block_count : Nat
deriving DecidableEq

/-- Source `ConnectionTracker` from `src/rate_limiter.rs`. -/
structure ConnectionTracker where
  active_connections : Nat
  last_connection : Nat
  connection_rate : List Nat
deriving DecidableEq

/-- Source `RateLimitReason` from `src/rate_limiter.rs`. -/
inductive RateLimitReason where
  | Allowed
  | RateLimit
  | GlobalLimit
  | Blocked
  | TooManyConnections
  | Blacklisted
  | Whitelisted
deriving DecidableEq

/-- Source `RateLimitResult` from `src/rate_limiter.rs`. -/
structure RateLimitResult where
  allowed : Bool
  reason : RateLimitReason
  retry_after : Option Nat
  remaining : Option Nat
deriving DecidableEq

/-- Modelled from the spec: the token-bucket limiter provided by the external
`governor` crate (not part of this repository).  Per the spec's glossary, a
token bucket holds a capacity (`burst`) drained by one unit per admitted
request; the continuous refill at `requests_per_minute` is not modelled
because no claim depends on elapsed-time refill. -/
structure TokenBucket where
  tokens : Nat
deriving DecidableEq

/-- Model of `DefaultDirectRateLimiter::new` with `Quota::per_minute(..).allow_burst(burst)`:
the bucket starts full at its burst capacity. -/
def TokenBucket.new (burst : Nat) : TokenBucket := ⟨burst⟩

/-- Model of `limiter.check()`: admit (and drain one token) when a token is available. -/
def TokenBucket.check (b : TokenBucket) : Bool × TokenBucket :=
  if 0 < b.tokens then (true, ⟨b.tokens - 1⟩) else (false, b)

/-- The mutable maps held by `RateLimiter` in `src/rate_limiter.rs`
(`global_limiter`, `per_ip_limiters`, `blocked_ips`, `connection_counts`),
embedded as association lists. -/
structure RLState where
  global_limiter : TokenBucket
  per_ip_limiters : List (IpAddr × TokenBucket)
  blocked_ips : List (IpAddr × BlockedClient)
  connection_counts : List (IpAddr × ConnectionTracker)
deriving DecidableEq

/-- Model of `HashMap::insert`: replace the binding for `k`, or append it. -/
def mapInsert {β : Type} (k : IpAddr) (v : β) : List (IpAddr × β) → List (IpAddr × β)
  | [] => [(k, v)]
  | (k', v') :: rest => if k' = k then (k, v) :: rest else (k', v') :: mapInsert k v rest

/-- Model of `HashMap::remove`: drop the binding for `k`. -/
def mapRemove {β : Type} (k : IpAddr) (m : List (IpAddr × β)) : List (IpAddr × β) :=
  m.filter (fun p => p.1 != k)

/-- Source `RateLimiter::is_whitelisted`: some configured entry parses to this IP. -/
def is_whitelisted (cfg : RateLimitConfig) (client_ip : IpAddr) : Bool :=
  cfg.whitelist.any (fun o => o == some client_ip)

/-- Source `RateLimiter::is_blacklisted`: some configured entry parses to this IP. -/
def is_blacklisted (cfg : RateLimitConfig) (client_ip : IpAddr) : Bool :=
  cfg.blacklist.any (fun o => o == some client_ip)

/-- Cumulative count stored by `block_ip`: one more than any existing
record's count, else 1. -/
def nextBlockCount (s : RLState) (client_ip : IpAddr) : Nat :=
  match List.lookup client_ip s.blocked_ips with
  | some existing => existing.block_count + 1
  | none => 1

/-- Source `RateLimiter::block_ip`: insert a block record expiring at `now + duration`,
with `block_count` one more than any existing record's count (else 1). -/
def block_ip (s : RLState) (now : Nat) (client_ip : IpAddr)
    (reason : BlockReason) (duration : Nat) : RLState :=
  let record : BlockedClient :=
    { blocked_until := now + duration, reason := reason,
      block_count := nextBlockCount s client_ip }
  { s with blocked_ips := mapInsert client_ip record s.blocked_ips }

/-- Source `RateLimiter::check_blocked_ip`: an unexpired record yields a `Blocked`
result with `retry_after = blocked_until - now`; an expired record is removed
and no result is produced. -/
def check_blocked_ip (s : RLState) (now : Nat) (client_ip : IpAddr) :
    Option RateLimitResult × RLState :=
  match List.lookup client_ip s.blocked_ips with
  | some blocked =>
    if now < blocked.blocked_until then
      (some { allowed := false, reason := .Blocked,
              retry_after := some (blocked.blocked_until - now), remaining := some 0 }, s)
    else
      (none, { s with blocked_ips := mapRemove client_ip s.blocked_ips })
  | none => (none, s)

/-- Source `RateLimiter::check_per_ip_limit`: check the lazily created per-IP bucket. -/
def check_per_ip_limit (cfg : RateLimitConfig) (s : RLState) (client_ip : IpAddr) :
    RateLimitResult × RLState :=
  match List.lookup client_ip s.per_ip_limiters with
  | some limiter =>
    match TokenBucket.check limiter with
    | (true, b') =>
      ({ allowed := true, reason := .Allowed, retry_after := none, remaining := none },
       { s with per_ip_limiters := mapInsert client_ip b' s.per_ip_limiters })
    | (false, b') =>
      ({ allowed := false, reason := .RateLimit, retry_after := some 60, remaining := some 0 },
       { s with per_ip_limiters := mapInsert client_ip b' s.per_ip_limiters })
  | none =>
    let limiter := TokenBucket.new cfg.burst
    match TokenBucket.check limiter with
    | (true, b') =>
      ({ allowed := true, reason := .Allowed, retry_after := none, remaining := none },
       { s with per_ip_limiters := mapInsert client_ip b' s.per_ip_limiters })
    | (false, b') =>
      ({ allowed := false, reason := .RateLimit, retry_after := some 60, remaining := some 0 },
       { s with per_ip_limiters := mapInsert client_ip b' s.per_ip_limiters })

/-- Source `RateLimiter::check_ddos_protection`: read-only check of the tracker. -/
def check_ddos_protection (ddos : DdosConfig) (s : RLState) (client_ip : IpAddr) :
    Option RateLimitResult :=
  match List.lookup client_ip s.connection_counts with
  | some tracker =>
    if tracker.active_connections > ddos.max_connections_per_ip then
      some { allowed := false, reason := .TooManyConnections,
             retry_after := some 60, remaining := some 0 }
    else none
  | none => none

/-- Source `RateLimiter::check_request` from `src/rate_limiter.rs`: the admission
decision for one request, returning the result and the updated limiter state. -/
def check_request (cfg : RateLimitConfig) (ddos : DdosConfig) (s : RLState)
    (now : Nat) (client_ip : IpAddr) (request_size : Option Nat) :
    RateLimitResult × RLState :=
  if cfg.enabled = false then
    ({ allowed := true, reason := .Allowed, retry_after := none, remaining := none }, s)
  else if is_whitelisted cfg client_ip then
    ({ allowed := true, reason := .Whitelisted, retry_after := none, remaining := none }, s)
  else if is_blacklisted cfg client_ip then
    ({ allowed := false, reason := .Blacklisted, retry_after := none, remaining := some 0 }, s)
  else
    match check_blocked_ip s now client_ip with
    | (some result, s1) => (result, s1)
    | (none, s1) =>
      let oversize : Bool :=
        match request_size with
        | some size => decide (size > cfg.max_request_size)
        | none => false
      if oversize then
        ({ allowed := false, reason := .RateLimit, retry_after := some 300, remaining := some 0 },
         block_ip s1 now client_ip .RateLimit 300)
      else
        match TokenBucket.check s1.global_limiter with
        | (false, g') =>
          ({ allowed := false, reason := .GlobalLimit, retry_after := some 60, remaining := some 0 },
           { s1 with global_limiter := g' })
        | (true, g') =>
          let s2 := { s1 with global_limiter := g' }
          let per_ip := check_per_ip_limit cfg s2 client_ip
          if per_ip.1.allowed = false then
            (per_ip.1,
             if cfg.auto_block_enabled then
               block_ip per_ip.2 now client_ip .RateLimit cfg.block_duration
             else per_ip.2)
          else if ddos.enabled then
            match check_ddos_protection ddos per_ip.2 client_ip with
            | some result => (result, per_ip.2)
            | none =>
              ({ allowed := true, reason := .Allowed, retry_after := none,
                 remaining := per_ip.1.remaining }, per_ip.2)
          else
            ({ allowed := true, reason := .Allowed, retry_after := none,
               remaining := per_ip.1.remaining }, per_ip.2)

/-- The tracker selected by `connection_counts.entry(client_ip).or_insert_with(..)`:
the existing tracker, or a fresh one with zero connections. -/
def trackerOf (s : RLState) (now : Nat) (client_ip : IpAddr) : ConnectionTracker :=
  match List.lookup client_ip s.connection_counts with
  | some t => t
  | none => { active_connections := 0, last_connection := now, connection_rate := [] }

/-- Source `RateLimiter::track_connection` from `src/rate_limiter.rs`: connection
open/close tracking with DDoS heuristics; returns whether the connection is
accepted, plus the updated state. -/
def track_connection (ddos : DdosConfig) (s : RLState) (now : Nat)
    (client_ip : IpAddr) (connected : Bool) : Bool × RLState :=
  if ddos.enabled = false then (true, s)
  else
    let tracker := trackerOf s now client_ip
    if connected then
      let t1 : ConnectionTracker :=
        { active_connections := tracker.active_connections + 1,
          last_connection := now,
          connection_rate :=
            (tracker.connection_rate ++ [now]).filter (fun time => now - time ≤ 60) }
      let s1 := { s with connection_counts := mapInsert client_ip t1 s.connection_counts }
      if t1.active_connections > ddos.max_connections_per_ip then
        (false, block_ip s1 now client_ip .TooManyConnections 600)
      else if t1.connection_rate.length > ddos.connection_rate_limit then
        (false, block_ip s1 now client_ip .DdosDetection 1800)
      else
        (true, s1)
    else
      let t1 : ConnectionTracker :=
        { tracker with active_connections := tracker.active_connections - 1 }
      (true, { s with connection_counts := mapInsert client_ip t1 s.connection_counts })

/-- Source `RateLimiter::unblock_ip`: remove the block record if present. -/
def unblock_ip (s : RLState) (client_ip : IpAddr) : Bool × RLState :=
  match List.lookup client_ip s.blocked_ips with
  | some _ => (true, { s with blocked_ips := mapRemove client_ip s.blocked_ips })
  | none => (false, s)

/-!
## Upstream manager and load balancer (`src/proxy.rs`)

An `Upstream` bundles the static `UpstreamConfig` fields (`name`, `address`,
`port`, `weight`, `max_fails`) with the live atomics (`healthy`,
`active_connections`, `total_requests`, `current_fails`).
-/

/-- One backend member: `Upstream` from `src/proxy.rs` flattened with its
`UpstreamConfig`. -/
structure Upstream where
  name : String
  address : String
  port : Nat
  weight : Nat
  max_fails : Nat
  healthy : Bool
  active_connections : Nat
  total_requests : Nat
  current_fails : Nat
deriving DecidableEq

/-- Source `ProxyManager::new` builds each member with `healthy = true` and all
counters at zero. -/
def mkUpstream (name address : String) (port weight max_fails : Nat) : Upstream :=
  { name := name, address := address, port := port, weight := weight,
    max_fails := max_fails, healthy := true, active_connections := 0,
    total_requests := 0, current_fails := 0 }

/-- One iteration of `health_check_task` in `src/proxy.rs` applied to one
member, given the outcome of `check_upstream_health`.  On failure the code
does `current_fails.fetch_add(1)` and stores `healthy = false` when the new
count is `>= max_fails`; on success it stores `current_fails = 0` and, if the
member was unhealthy, stores `healthy = true` (so `healthy` is `true` either
way afterwards). -/
def probeStep (u : Upstream) (success : Bool) : Upstream :=
  if success then
    { u with current_fails := 0, healthy := true }
  else
    let fails := u.current_fails + 1
    { u with current_fails := fails,
             healthy := if fails ≥ u.max_fails then false else u.healthy }

/-- Iterated: `k` consecutive failing probes. -/
def probeFailIter (u : Upstream) : Nat → Upstream
  | 0 => u
  | k + 1 => probeStep (probeFailIter u k) false

/-- Source `LoadBalancingMethod` from `src/config.rs`. -/
inductive LoadBalancingMethod where
  | RoundRobin
  | LeastConnections
  | Random
  | Weighted
  | IpHash
deriving DecidableEq

/-- Sum of member weights, as in the `Weighted` arm of `LoadBalancer::select`:
the source computes `upstreams.iter().map(|u| u.config.weight).sum::<u32>()`,
a `u32` sum of `u32` config weights, which wraps modulo `2 ^ 32` on overflow
in a release build (a debug build already panics on the overflowing
addition; a wrapped sum of zero makes the subsequent `%` panic in both
modes).  Folding `u32` additions is the same as reducing the mathematical
sum modulo `2 ^ 32`. -/
def totalWeight (upstreams : List Upstream) : Nat :=
  (upstreams.map (fun u => u.weight)).sum % 2 ^ 32

/-- The subtraction walk of the `Weighted` arm of `LoadBalancer::select`:
walk the members subtracting each weight from `target` until `target` falls
below the current member's weight.  `none` means the loop fell through to the
trailing fallback. -/
def weightedWalk : Nat → List Upstream → Option Upstream
  | _, [] => none
  | target, u :: rest =>
    if target < u.weight then some u else weightedWalk (target - u.weight) rest

/-- Rust `Iterator::min_by_key` on `active_connections` (first minimum wins),
as in the `LeastConnections` arm of `LoadBalancer::select`. -/
def minByActiveConnections : List Upstream → Option Upstream
  | [] => none
  | u :: rest =>
    some (rest.foldl
      (fun best v => if v.active_connections < best.active_connections then v else best) u)

/-- Source `LoadBalancer::select` from `src/proxy.rs`.  `counter` is the value read
(and post-incremented) from the shared `round_robin_counter`; `rand` models
the value drawn by `rand::thread_rng().gen_range(0..len)` in the `Random`
arm.  A result of `none` models a Rust panic: indexing `counter % len` with
`len = 0`, `gen_range` on an empty range, or — in the `Weighted` arm, which
first truncates the counter with `as u32` — the division by zero in
`counter % total_weight` when the wrapped `u32` weight sum is zero (every
weight zero, or a weight sum overflowing to a multiple of `2 ^ 32`). -/
def LoadBalancer.select (method : LoadBalancingMethod) (counter rand : Nat)
    (upstreams : List Upstream) : Option Upstream :=
  match method with
  | .RoundRobin => upstreams[counter % upstreams.length]?
  | .LeastConnections => minByActiveConnections upstreams
  | .Random => upstreams[rand]?
  | .Weighted =>
    if totalWeight upstreams = 0 then none
    else
      match weightedWalk ((counter % 2 ^ 32) % totalWeight upstreams) upstreams with
      | some u => some u
      | none => upstreams[0]?
  | .IpHash => upstreams[counter % upstreams.length]?

/-- Outcome of `ProxyManager::select_upstream`: a selected member, the
"No healthy upstreams available" error, or a panic inside the load balancer. -/
inductive SelectOutcome where
  | ok (u : Upstream)
  | noHealthyUpstream
  | crash
deriving DecidableEq

/-- Source `ProxyManager::select_upstream` from `src/proxy.rs`: explicit pinning by
name (first member whose name matches, only if healthy), otherwise the load
balancer over the healthy members, failing when none is healthy. -/
def select_upstream (method : LoadBalancingMethod) (counter rand : Nat)
    (upstream_name : String) (upstreams : List Upstream) : SelectOutcome :=
  let pinned : Option Upstream :=
    if upstream_name ≠ "" ∧ upstream_name ≠ "*" then
      match upstreams.find? (fun u => u.name == upstream_name) with
      | some u => if u.healthy then some u else none
      | none => none
    else none
  match pinned with
  | some u => .ok u
  | none =>
    let healthy_upstreams := upstreams.filter (fun u => u.healthy)
    if healthy_upstreams.isEmpty then .noHealthyUpstream
    else
      match LoadBalancer.select method counter rand healthy_upstreams with
      | some u => .ok u
      | none => .crash

/-- The three counters touched by `ProxyManager::forward_request`: the
manager's `request_counter` and the selected member's `total_requests` and
`active_connections`. -/
structure ForwardCounters where
  request_counter : Nat
  member_total_requests : Nat
  member_active_connections : Nat
deriving DecidableEq

/-- The counter discipline of `ProxyManager::forward_request` in
`src/proxy.rs`, given an already selected member: increment all three
counters before dispatch, then decrement the member's `active_connections`
after `forward_to_upstream` completes, whatever `outcome` (the `Result` of
the outbound call, whose network behaviour is a parameter here) it produced. -/
def forward_request_counters (c : ForwardCounters) (outcome : Except Nat Unit) :
    ForwardCounters × Except Nat Unit :=
  let dispatched : ForwardCounters :=
    { request_counter := c.request_counter + 1,
      member_total_requests := c.member_total_requests + 1,
      member_active_connections := c.member_active_connections + 1 }
  let completed : ForwardCounters :=
    { dispatched with
        member_active_connections := dispatched.member_active_connections - 1 }
  (completed, outcome)

/-!
## Router (`src/router.rs`)
-/

/-- HTTP methods (`http::Method` values used by the router). -/
inductive Method where
  | GET
  | HEAD
  | POST
  | PUT
  | DELETE
  | OPTIONS
  | PATCH
deriving DecidableEq

/-- Source `RouteHandler` from `src/router.rs`. -/
inductive RouteHandler where
  | Proxy (upstream_name : String)
  | Static
  | Health
  | Admin
deriving DecidableEq

/-- Source `Route` from `src/router.rs`. -/
structure Route where
  path_pattern : String
  host_pattern : Option String
  methods : List Method
  handler : RouteHandler
  priority : Nat
deriving DecidableEq

/-- Character-level model of Rust `str::ends_with`.  Rust compares UTF-8
bytes; on whole-codepoint boundaries (always the case for the literal
patterns "/*", ":" and "/" used by the router) byte-level and
character-level prefix/suffix/split agree.  Lean's built-in `String`
functions are avoided only because their `Substring` machinery does not
reduce inside the kernel. -/
def strEndsWith (s suffix : String) : Bool := List.isSuffixOf suffix.data s.data

/-- Character-level model of Rust `str::starts_with`. -/
def strStartsWith (s pre : String) : Bool := List.isPrefixOf pre.data s.data

/-- Character-level model of Rust `str::contains(char)`. -/
def strContains (s : String) (c : Char) : Bool := s.data.contains c

/-- Character-level model of the byte slice `&s[..s.len() - n]` for ASCII
tails (the router only uses it to cut the trailing "/*"). -/
def strDropRight (s : String) (n : Nat) : String := ⟨s.data.take (s.data.length - n)⟩

/-- Rust `str::split(c)` on a character list: `""` yields `[""]`, and each
occurrence of `c` starts a new (possibly empty) segment. -/
def splitChar (c : Char) : List Char → List (List Char)
  | [] => [[]]
  | x :: xs =>
    if x = c then [] :: splitChar c xs
    else
      match splitChar c xs with
      | [] => [[x]]
      | h :: t => (x :: h) :: t

/-- Character-level model of Rust `str::split(c)` producing strings. -/
def strSplitOn (s : String) (c : Char) : List String := (splitChar c s.data).map String.mk

/-- Source `Router::pattern_matches` from `src/router.rs`: exact equality; else, a
pattern ending in `/*` matches iff the path starts with the prefix before
`/*` (this branch returns, with no fallthrough); else, a pattern containing
`:` is split on `/` and compared segment-by-segment with equal counts, a
`:`-segment matching anything. -/
def pattern_matches (pattern path : String) : Bool :=
  if pattern == path then true
  else if strEndsWith pattern "/*" then
    strStartsWith path (strDropRight pattern 2)
  else if strContains pattern ':' then
    let pattern_parts := strSplitOn pattern '/'
    let path_parts := strSplitOn path '/'
    if pattern_parts.length ≠ path_parts.length then false
    else
      (pattern_parts.zip path_parts).all
        (fun pp => strStartsWith pp.1 ":" || pp.1 == pp.2)
  else false

/-- Source `Router::route_matches` from `src/router.rs`: method-set check, host
check (a present host pattern is matched against the request host with
`pattern_matches`; a missing request host fails it), then path check. -/
def route_matches (route : Route) (path : String) (method : Method)
    (host : Option String) : Bool :=
  if route.methods.isEmpty = false ∧ route.methods.contains method = false then
    false
  else
    match route.host_pattern, host with
    | some host_pat, some h =>
      if pattern_matches host_pat h = false then false
      else pattern_matches route.path_pattern path
    | some _, none => false
    | none, _ => pattern_matches route.path_pattern path

/-- Routing outcome: which handler the first matching route dispatches to, or
the 404 response `Router::route_request` builds when no route matches (an
`Ok` value in the code, not an error). -/
inductive RouteOutcome where
  | matched (handler : RouteHandler)
  | notFound
deriving DecidableEq

/-- The route-selection core of `Router::route_request` from
`src/router.rs`: scan the (priority-sorted) route list in order and dispatch
to the first route for which `route_matches` holds; with no match, return the
`NOT_FOUND` outcome. -/
def route_request (routes : List Route) (method : Method) (path : String)
    (host : Option String) : RouteOutcome :=
  match routes.find? (fun route => route_matches route path method host) with
  | some route => .matched route.handler
  | none => .notFound

/-!
## Helper lemmas
-/

/-- Looking up a key immediately after inserting it returns the new value. -/
theorem lookup_mapInsert {β : Type} (k : IpAddr) (v : β) (m : List (IpAddr × β)) :
    List.lookup k (mapInsert k v m) = some v := by
  induction m with
  | nil => simp [mapInsert, List.lookup]
  | cons p rest ih =>
    rcases p with ⟨k', v'⟩
    by_cases h : k' = k
    · simp [mapInsert, h, List.lookup]
    · simp only [mapInsert, if_neg h, List.lookup]
      have : (k == k') = false := by simp [Ne.symm h]
      rw [this]
      exact ih

/-- Looking up a key after removing it returns nothing. -/
theorem lookup_mapRemove {β : Type} (k : IpAddr) (m : List (IpAddr × β)) :
    List.lookup k (mapRemove k m) = none := by
  induction m with
  | nil => simp [mapRemove, List.lookup]
  | cons p rest ih =>
    rcases p with ⟨k', v'⟩
    by_cases h : k' = k
    · simpa [mapRemove, h] using ih
    · simp only [mapRemove, List.filter] at ih ⊢
      have hne : (k' != k) = true := by simp [h]
      rw [hne]
      simp only [List.lookup]
      have : (k == k') = false := by simp [Ne.symm h]
      rw [this]
      exact ih

/-- Lemma: `block_ip` leaves the connection trackers, per-IP limiters and global
limiter untouched and installs the expected record for the blocked IP. -/
theorem block_ip_effects (s : RLState) (now : Nat) (ip : IpAddr)
    (reason : BlockReason) (duration : Nat) :
    (block_ip s now ip reason duration).connection_counts = s.connection_counts ∧
    (block_ip s now ip reason duration).per_ip_limiters = s.per_ip_limiters ∧
    (block_ip s now ip reason duration).global_limiter = s.global_limiter ∧
    List.lookup ip (block_ip s now ip reason duration).blocked_ips =
      some ⟨now + duration, reason, nextBlockCount s ip⟩ := by
  refine ⟨rfl, rfl, rfl, ?_⟩
  simp only [block_ip]
  exact lookup_mapInsert ip _ s.blocked_ips

/-- Lemma: `probeStep` never changes the configured failure threshold. -/
theorem probeStep_max_fails (u : Upstream) (b : Bool) :
    (probeStep u b).max_fails = u.max_fails := by
  simp only [probeStep]
  split <;> rfl

/-- Consecutive failing probes keep the threshold and add one failure each. -/
theorem probeFailIter_fails (u : Upstream) (k : Nat) :
    (probeFailIter u k).max_fails = u.max_fails ∧
    (probeFailIter u k).current_fails = u.current_fails + k := by
  induction k with
  | zero => exact ⟨rfl, rfl⟩
  | succ k ih =>
    refine ⟨?_, ?_⟩
    · rw [probeFailIter, probeStep_max_fails, ih.1]
    · simp only [probeFailIter, probeStep, if_neg (by simp : ¬ (false = true))]
      rw [ih.2]
      omega

/-!
## Claim theorems
-/

/-- Claim C9: for every healthy member list and every shared counter value,
selection under `IpHash` computes exactly the same member as selection under
`RoundRobin` — both index `counter % N` — and the model of the `IpHash` arm
does not even take a client IP.  Confirmed: the two arms of
`LoadBalancer::select` are identical code. -/
theorem iphash_select_equals_roundrobin (counter rand : Nat)
    (upstreams : List Upstream) :
    LoadBalancer.select .IpHash counter rand upstreams =
      LoadBalancer.select .RoundRobin counter rand upstreams := rfl

/-- Claim C8: given a selected member, `forward_request` bumps the manager's
request counter and the member's `total_requests` by one, and the member's
`active_connections` is incremented before dispatch and decremented exactly
once on completion, so it ends at its prior value in both the success and
the error outcome, which is itself passed through unchanged. -/
theorem forward_request_counter_frame (c : ForwardCounters)
    (outcome : Except Nat Unit) :
    (forward_request_counters c outcome).1.request_counter = c.request_counter + 1 ∧
    (forward_request_counters c outcome).1.member_total_requests =
      c.member_total_requests + 1 ∧
    (forward_request_counters c outcome).1.member_active_connections =
      c.member_active_connections ∧
    (forward_request_counters c outcome).2 = outcome := by
  refine ⟨rfl, rfl, ?_, rfl⟩
  simp [forward_request_counters]

/-- Claim C2: the per-member health state machine.  A fresh member starts
Healthy with zero consecutive fails; along a run of consecutive probe
failures from that state it stays Healthy with `current_fails = k` for every
`k < max_fails` and flips to Unhealthy exactly at the `max_fails`-th failure;
a successful probe always resets `current_fails` to zero and makes the
member Healthy (recovery on the very first success, no intermediate
threshold); and in general a failing probe increments the counter and the
member is Unhealthy afterwards iff the new count has reached `max_fails` or
it already was Unhealthy. -/
theorem health_check_state_machine (name address : String)
    (port weight max_fails : Nat) (hmf : 1 ≤ max_fails) :
    ((mkUpstream name address port weight max_fails).healthy = true ∧
     (mkUpstream name address port weight max_fails).current_fails = 0) ∧
    (∀ k, k < max_fails →
      (probeFailIter (mkUpstream name address port weight max_fails) k).healthy = true ∧
      (probeFailIter (mkUpstream name address port weight max_fails) k).current_fails = k) ∧
    ((probeFailIter (mkUpstream name address port weight max_fails) max_fails).healthy
        = false ∧
     (probeFailIter (mkUpstream name address port weight max_fails) max_fails).current_fails
        = max_fails) ∧
    (∀ u : Upstream, (probeStep u true).current_fails = 0 ∧
      (probeStep u true).healthy = true) ∧
    (∀ u : Upstream, (probeStep u false).current_fails = u.current_fails + 1 ∧
      ((probeStep u false).healthy = false ↔
        (u.max_fails ≤ u.current_fails + 1 ∨ u.healthy = false))) := by
  set u0 := mkUpstream name address port weight max_fails with hu0
  have hhealthy : ∀ k, k < max_fails → (probeFailIter u0 k).healthy = true := by
    intro k
    induction k with
    | zero => intro _; rfl
    | succ k ih =>
      intro hk
      have hprev : (probeFailIter u0 k).healthy = true := ih (by omega)
      have hf := probeFailIter_fails u0 k
      simp only [probeFailIter, probeStep, if_neg (by simp : ¬ (false = true))]
      have hlt : ¬ ((probeFailIter u0 k).current_fails + 1 ≥ (probeFailIter u0 k).max_fails) := by
        rw [hf.1, hf.2]
        simp only [hu0, mkUpstream]
        omega
      rw [if_neg hlt]
      exact hprev
  refine ⟨⟨rfl, rfl⟩, ?_, ?_, ?_, ?_⟩
  · intro k hk
    refine ⟨hhealthy k hk, ?_⟩
    have hf := probeFailIter_fails u0 k
    rw [hf.2, hu0]
    simp [mkUpstream]
  · obtain ⟨j, hj⟩ : ∃ j, max_fails = j + 1 := ⟨max_fails - 1, by omega⟩
    have hf := probeFailIter_fails u0 j
    constructor
    · rw [hj]
      simp only [probeFailIter, probeStep, if_neg (by simp : ¬ (false = true))]
      have hge : (probeFailIter u0 j).current_fails + 1 ≥ (probeFailIter u0 j).max_fails := by
        rw [hf.1, hf.2]
        simp only [hu0, mkUpstream]
        omega
      rw [if_pos hge]
    · rw [(probeFailIter_fails u0 max_fails).2, hu0]
      simp [mkUpstream]
  · intro u
    exact ⟨rfl, rfl⟩
  · intro u
    refine ⟨?_, ?_⟩
    · simp [probeStep]
    · simp only [probeStep, if_neg (by simp : ¬ (false = true))]
      by_cases hge : u.current_fails + 1 ≥ u.max_fails
      · simp only [if_pos hge]
        constructor
        · intro _
          left
          omega
        · intro _
          trivial
      · simp only [if_neg hge]
        constructor
        · intro h
          right
          exact h
        · intro h
          rcases h with h | h
          · omega
          · exact h

/-- Configuration and state used by the C1 and C7 counterexamples and
witnesses: IP 1 is whitelisted, IP 2 blacklisted. -/
def cfgWB : RateLimitConfig :=
  { enabled := true, requests_per_minute := 60, burst := 10, max_request_size := 1024,
    whitelist := [some 1], blacklist := [some 2], auto_block_enabled := false,
    block_duration := 300 }

def ddosOff : DdosConfig :=
  { enabled := false, max_connections_per_ip := 100, connection_rate_limit := 10,
    packet_rate_limit := 1000, window_size := 60 }

def emptyState : RLState :=
  { global_limiter := ⟨10⟩, per_ip_limiters := [], blocked_ips := [],
    connection_counts := [] }

/-- Claim C1 counterexample: with rate limiting disabled in the
configuration, `check_request` returns Allowed for every IP before ever
consulting the whitelist or blacklist — so the whitelisted IP 1 is not
returned as Whitelisted, and the blacklisted IP 2 is admitted rather than
always denied, contradicting "regardless of rate-limit configuration". -/
theorem check_request_disabled_counterexample :
    is_whitelisted { cfgWB with enabled := false } 1 = true ∧
    is_blacklisted { cfgWB with enabled := false } 2 = true ∧
    (check_request { cfgWB with enabled := false } ddosOff emptyState 0 1 none).1.reason
      = .Allowed ∧
    (check_request { cfgWB with enabled := false } ddosOff emptyState 0 2 none).1.allowed
      = true ∧
    ((check_request { cfgWB with enabled := false } ddosOff emptyState 0 2 none).1.reason
      == RateLimitReason.Blacklisted) = false := by
  refine ⟨by decide, by decide, rfl, rfl, by decide⟩

/-- Claim C1 (amended): when rate limiting is enabled in the configuration,
`check_request` evaluates whitelist membership before the blacklist,
block-record, size and token-bucket checks: a whitelisted IP is returned as
Whitelisted (allowed) for every admission state, request size and remaining
configuration — in particular despite any existing block record — with no
state mutation; and a non-whitelisted blacklisted IP is returned as
Blacklisted (denied) with no mutation of the block, limiter or
connection-tracker state. -/
theorem check_request_whitelist_blacklist (cfg : RateLimitConfig)
    (ddos : DdosConfig) (s : RLState) (now : Nat) (client_ip : IpAddr)
    (request_size : Option Nat) (hen : cfg.enabled = true) :
    (is_whitelisted cfg client_ip = true →
      check_request cfg ddos s now client_ip request_size =
        ({ allowed := true, reason := .Whitelisted, retry_after := none,
           remaining := none }, s)) ∧
    (is_whitelisted cfg client_ip = false → is_blacklisted cfg client_ip = true →
      check_request cfg ddos s now client_ip request_size =
        ({ allowed := false, reason := .Blacklisted, retry_after := none,
           remaining := some 0 }, s)) := by
  constructor
  · intro hw
    simp [check_request, hen, hw]
  · intro hw hb
    simp [check_request, hen, hw, hb]

/-- Claim C1 witness: under the enabled configuration `cfgWB`, whitelisted
IP 1 is Whitelisted and blacklisted IP 2 is Blacklisted, even with a live
block record for each in the state, and the state is untouched. -/
theorem check_request_whitelist_blacklist_witness :
    check_request cfgWB ddosOff
      { emptyState with blocked_ips := [(1, ⟨900, .RateLimit, 1⟩), (2, ⟨900, .RateLimit, 1⟩)] }
      0 1 none =
      ({ allowed := true, reason := .Whitelisted, retry_after := none, remaining := none },
       { emptyState with blocked_ips := [(1, ⟨900, .RateLimit, 1⟩), (2, ⟨900, .RateLimit, 1⟩)] }) ∧
    check_request cfgWB ddosOff
      { emptyState with blocked_ips := [(1, ⟨900, .RateLimit, 1⟩), (2, ⟨900, .RateLimit, 1⟩)] }
      0 2 none =
      ({ allowed := false, reason := .Blacklisted, retry_after := none, remaining := some 0 },
       { emptyState with blocked_ips := [(1, ⟨900, .RateLimit, 1⟩), (2, ⟨900, .RateLimit, 1⟩)] }) := by
  constructor
  · exact (check_request_whitelist_blacklist cfgWB ddosOff
      { emptyState with blocked_ips := [(1, ⟨900, .RateLimit, 1⟩), (2, ⟨900, .RateLimit, 1⟩)] }
      0 1 none rfl).1 (by decide)
  · exact (check_request_whitelist_blacklist cfgWB ddosOff
      { emptyState with blocked_ips := [(1, ⟨900, .RateLimit, 1⟩), (2, ⟨900, .RateLimit, 1⟩)] }
      0 2 none rfl).2 (by decide) (by decide)

/-- Lemma: `check_per_ip_limit` only ever reports Allowed or RateLimit. -/
theorem check_per_ip_limit_reason (cfg : RateLimitConfig) (s : RLState)
    (client_ip : IpAddr) :
    (check_per_ip_limit cfg s client_ip).1.reason = .Allowed ∨
    (check_per_ip_limit cfg s client_ip).1.reason = .RateLimit := by
  unfold check_per_ip_limit
  cases List.lookup client_ip s.per_ip_limiters with
  | none =>
    rcases h : TokenBucket.check (TokenBucket.new cfg.burst) with ⟨ok, b'⟩
    cases ok <;> simp [h]
  | some limiter =>
    rcases h : TokenBucket.check limiter with ⟨ok, b'⟩
    cases ok <;> simp [h]

/-- Lemma: `check_ddos_protection` only ever reports TooManyConnections. -/
theorem check_ddos_protection_reason (ddos : DdosConfig) (s : RLState)
    (client_ip : IpAddr) (r : RateLimitResult)
    (h : check_ddos_protection ddos s client_ip = some r) :
    r.reason = .TooManyConnections := by
  unfold check_ddos_protection at h
  rcases hl : List.lookup client_ip s.connection_counts with _ | tracker
  · rw [hl] at h
    cases h
  · rw [hl] at h
    simp only at h
    split at h
    · cases h
      rfl
    · cases h

/-- State used by the C7 counterexample: whitelisted IP 1 carries a block
record (such a record is reachable because `track_connection` blocks without
consulting the whitelist). -/
def stBlocked : RLState :=
  { emptyState with blocked_ips := [(1, ⟨900, .TooManyConnections, 1⟩)] }

/-- Claim C7 counterexample: IP 1 has a block record expiring at 900, yet a
`check_request` before that instant returns Whitelisted, not Blocked, and
the first `check_request` at the expiry instant does not delete the record —
the whitelist check short-circuits ahead of the block-record check, so the
claim's "for every IP with a block record" fails. -/
theorem check_request_block_counterexample :
    List.lookup 1 stBlocked.blocked_ips =
      some ⟨900, BlockReason.TooManyConnections, 1⟩ ∧
    is_whitelisted cfgWB 1 = true ∧
    (check_request cfgWB ddosOff stBlocked 0 1 none).1.reason = .Whitelisted ∧
    ((check_request cfgWB ddosOff stBlocked 0 1 none).1.reason
      == RateLimitReason.Blocked) = false ∧
    List.lookup 1 (check_request cfgWB ddosOff stBlocked 900 1 none).2.blocked_ips =
      some ⟨900, BlockReason.TooManyConnections, 1⟩ := by
  refine ⟨rfl, by decide, rfl, by decide, rfl⟩

/-- Claim C7 (amended): with rate limiting enabled and an IP that is neither
whitelisted nor blacklisted and carries a block record: every `check_request`
before `blocked_until` returns Blocked with `retry_after = blocked_until -
now` and an unchanged state, and at or after `blocked_until` the block check
(`check_blocked_ip`) deletes the record as a side effect and `check_request`
does not return Blocked (though another rule firing in the same call may
install a fresh block). -/
theorem check_request_block_expiry (cfg : RateLimitConfig) (ddos : DdosConfig)
    (s : RLState) (now : Nat) (client_ip : IpAddr) (request_size : Option Nat)
    (b : BlockedClient) (hen : cfg.enabled = true)
    (hw : is_whitelisted cfg client_ip = false)
    (hb : is_blacklisted cfg client_ip = false)
    (hrec : List.lookup client_ip s.blocked_ips = some b) :
    (now < b.blocked_until →
      check_request cfg ddos s now client_ip request_size =
        ({ allowed := false, reason := .Blocked,
           retry_after := some (b.blocked_until - now), remaining := some 0 }, s)) ∧
    (b.blocked_until ≤ now →
      check_blocked_ip s now client_ip =
        (none, { s with blocked_ips := mapRemove client_ip s.blocked_ips }) ∧
      (check_request cfg ddos s now client_ip request_size).1.reason ≠ .Blocked) := by
  constructor
  · intro hlt
    have hcb : check_blocked_ip s now client_ip =
        (some { allowed := false, reason := .Blocked,
                retry_after := some (b.blocked_until - now), remaining := some 0 }, s) := by
      simp [check_blocked_ip, hrec, hlt]
    simp [check_request, hen, hw, hb, hcb]
  · intro hge
    have hnl : ¬ now < b.blocked_until := by omega
    have hcb : check_blocked_ip s now client_ip =
        (none, { s with blocked_ips := mapRemove client_ip s.blocked_ips }) := by
      simp [check_blocked_ip, hrec, hnl]
    refine ⟨hcb, ?_⟩
    simp only [check_request, hen, hw, hb, hcb]
    simp
    split
    · simp
    · rcases hg : TokenBucket.check
        ({ s with blocked_ips := mapRemove client_ip s.blocked_ips } : RLState).global_limiter
        with ⟨gok, g'⟩
      cases gok
      · simp
      · simp only
        split
        · rcases check_per_ip_limit_reason cfg _ client_ip with h | h <;>
            · rw [h]
              simp
        · split
          · rcases hdd : check_ddos_protection ddos _ client_ip with _ | r
            · simp
            · have := check_ddos_protection_reason ddos _ client_ip r hdd
              simp [this]
          · simp

/-- Claim C7 witness: IP 5 (neither whitelisted nor blacklisted) is blocked
until 900; at time 100 `check_request` returns Blocked with `retry_after =
800` and an unchanged state, and at time 900 the block check deletes the
record. -/
theorem check_request_block_expiry_witness :
    check_request cfgWB ddosOff
      { emptyState with blocked_ips := [(5, ⟨900, .DdosDetection, 3⟩)] } 100 5 none =
      ({ allowed := false, reason := .Blocked, retry_after := some 800, remaining := some 0 },
       { emptyState with blocked_ips := [(5, ⟨900, .DdosDetection, 3⟩)] }) ∧
    check_blocked_ip
      { emptyState with blocked_ips := [(5, ⟨900, .DdosDetection, 3⟩)] } 900 5 =
      (none, emptyState) := by
  constructor
  · exact (check_request_block_expiry cfgWB ddosOff
      { emptyState with blocked_ips := [(5, ⟨900, .DdosDetection, 3⟩)] } 100 5 none
      ⟨900, .DdosDetection, 3⟩ rfl (by decide) (by decide) rfl).1 (by decide)
  · exact ((check_request_block_expiry cfgWB ddosOff
      { emptyState with blocked_ips := [(5, ⟨900, .DdosDetection, 3⟩)] } 900 5 none
      ⟨900, .DdosDetection, 3⟩ rfl (by decide) (by decide) rfl).2 (by decide)).1

/-- Claim C6: with DDoS protection enabled, `track_connection` on connect
increments `active_connections`, appends the current timestamp to the
sliding window and drops entries older than 60 seconds; it then returns
false after installing a 600-second TooManyConnections block when
`active_connections` exceeds `max_connections_per_ip`, else returns false
after installing a 1800-second DdosDetection block when the window length
exceeds `connection_rate_limit`, else returns true with no block; on
disconnect it returns true, decrements `active_connections` (floored at
zero by the saturating subtraction) and touches no block state. -/
theorem track_connection_spec (ddos : DdosConfig) (s : RLState) (now : Nat)
    (client_ip : IpAddr) (hen : ddos.enabled = true) :
    (List.lookup client_ip
        (track_connection ddos s now client_ip true).2.connection_counts =
      some { active_connections := (trackerOf s now client_ip).active_connections + 1,
             last_connection := now,
             connection_rate :=
               ((trackerOf s now client_ip).connection_rate ++ [now]).filter
                 (fun time => now - time ≤ 60) }) ∧
    ((trackerOf s now client_ip).active_connections + 1 > ddos.max_connections_per_ip →
      (track_connection ddos s now client_ip true).1 = false ∧
      List.lookup client_ip (track_connection ddos s now client_ip true).2.blocked_ips =
        some ⟨now + 600, .TooManyConnections, nextBlockCount s client_ip⟩) ∧
    ((trackerOf s now client_ip).active_connections + 1 ≤ ddos.max_connections_per_ip →
      (((trackerOf s now client_ip).connection_rate ++ [now]).filter
          (fun time => now - time ≤ 60)).length > ddos.connection_rate_limit →
      (track_connection ddos s now client_ip true).1 = false ∧
      List.lookup client_ip (track_connection ddos s now client_ip true).2.blocked_ips =
        some ⟨now + 1800, .DdosDetection, nextBlockCount s client_ip⟩) ∧
    ((trackerOf s now client_ip).active_connections + 1 ≤ ddos.max_connections_per_ip →
      (((trackerOf s now client_ip).connection_rate ++ [now]).filter
          (fun time => now - time ≤ 60)).length ≤ ddos.connection_rate_limit →
      (track_connection ddos s now client_ip true).1 = true ∧
      (track_connection ddos s now client_ip true).2.blocked_ips = s.blocked_ips) ∧
    ((track_connection ddos s now client_ip false).1 = true ∧
     (track_connection ddos s now client_ip false).2.blocked_ips = s.blocked_ips ∧
     List.lookup client_ip
        (track_connection ddos s now client_ip false).2.connection_counts =
      some { trackerOf s now client_ip with
              active_connections := (trackerOf s now client_ip).active_connections - 1 }) := by
  have henf : (ddos.enabled = false) = False := by simp [hen]
  set T := trackerOf s now client_ip with hT
  set rate1 := (T.connection_rate ++ [now]).filter (fun time => now - time ≤ 60) with hrate1
  set t1 : ConnectionTracker := ⟨T.active_connections + 1, now, rate1⟩ with ht1
  set s1 : RLState :=
    { s with connection_counts := mapInsert client_ip t1 s.connection_counts } with hs1
  have hmain : track_connection ddos s now client_ip true =
      if t1.active_connections > ddos.max_connections_per_ip then
        (false, block_ip s1 now client_ip .TooManyConnections 600)
      else if t1.connection_rate.length > ddos.connection_rate_limit then
        (false, block_ip s1 now client_ip .DdosDetection 1800)
      else (true, s1) := by
    simp only [track_connection, henf, if_false]
    rfl
  have hdisc : track_connection ddos s now client_ip false =
      (true,
       { s with
         connection_counts :=
           mapInsert client_ip
             (ConnectionTracker.mk (T.active_connections - 1) T.last_connection
               T.connection_rate)
             s.connection_counts }) := by
    simp only [track_connection, henf, if_false]
    rfl
  refine ⟨?_, ?_, ?_, ?_, ?_, ?_, ?_⟩
  · rw [hmain]
    split
    · exact lookup_mapInsert client_ip t1 s.connection_counts
    · split
      · exact lookup_mapInsert client_ip t1 s.connection_counts
      · exact lookup_mapInsert client_ip t1 s.connection_counts
  · intro hgt
    have hc1 : t1.active_connections > ddos.max_connections_per_ip := hgt
    rw [hmain, if_pos hc1]
    exact ⟨rfl, (block_ip_effects s1 now client_ip .TooManyConnections 600).2.2.2⟩
  · intro hle hrate
    have hc1 : ¬ t1.active_connections > ddos.max_connections_per_ip := by
      show ¬ T.active_connections + 1 > ddos.max_connections_per_ip
      omega
    have hc2 : t1.connection_rate.length > ddos.connection_rate_limit := hrate
    rw [hmain, if_neg hc1, if_pos hc2]
    exact ⟨rfl, (block_ip_effects s1 now client_ip .DdosDetection 1800).2.2.2⟩
  · intro hle hrate
    have hc1 : ¬ t1.active_connections > ddos.max_connections_per_ip := by
      show ¬ T.active_connections + 1 > ddos.max_connections_per_ip
      omega
    have hc2 : ¬ t1.connection_rate.length > ddos.connection_rate_limit := by
      show ¬ rate1.length > ddos.connection_rate_limit
      omega
    rw [hmain, if_neg hc1, if_neg hc2]
    exact ⟨rfl, rfl⟩
  · rw [hdisc]
  · rw [hdisc]
  · rw [hdisc]
    exact lookup_mapInsert client_ip _ s.connection_counts

/-- Configuration and state for the C6 witness: DDoS protection enabled,
at most 2 concurrent connections per IP, and IP 9 already holding 2. -/
def ddosOn : DdosConfig :=
  { enabled := true, max_connections_per_ip := 2, connection_rate_limit := 3,
    packet_rate_limit := 1000, window_size := 60 }

def stTr : RLState :=
  { emptyState with connection_counts := [(9, ⟨2, 0, []⟩)] }

/-- Claim C6 witness: a third concurrent connection from IP 9 is rejected
with a 600-second TooManyConnections block, and a disconnect is always
accepted. -/
theorem track_connection_spec_witness :
    (track_connection ddosOn stTr 5 9 true).1 = false ∧
    List.lookup 9 (track_connection ddosOn stTr 5 9 true).2.blocked_ips =
      some ⟨605, .TooManyConnections, 1⟩ ∧
    (track_connection ddosOn stTr 5 9 false).1 = true := by
  have h := track_connection_spec ddosOn stTr 5 9 rfl
  refine ⟨(h.2.1 (by decide)).1, (h.2.1 (by decide)).2, h.2.2.2.2.1⟩

/-- Lemma: `List.find?` returns the element at the first position whose predicate
holds when all earlier positions fail it. -/
theorem find?_first {α : Type} (p : α → Bool) (l : List α) :
    ∀ (i : Fin l.length), p (l.get i) = true →
      (∀ k : Fin l.length, (k : Nat) < (i : Nat) → p (l.get k) = false) →
      l.find? p = some (l.get i) := by
  induction l with
  | nil =>
    intro i
    exact absurd i.isLt (by simp)
  | cons a l ih =>
    intro i hp hmin
    rcases i with ⟨n, hn⟩
    cases n with
    | zero =>
      exact List.find?_cons_of_pos l hp
    | succ n =>
      have ha : p a = false := hmin ⟨0, by omega⟩ (by simp)
      rw [List.find?_cons_of_neg l (by simp [ha])]
      refine ih ⟨n, by simpa using hn⟩ hp (fun k hk => ?_)
      have hkn : (k : Nat) < n := hk
      exact hmin ⟨(k : Nat) + 1, by omega⟩ (Nat.succ_lt_succ hkn)

/-- Route used by the C4 counterexample: host pattern "h/*". -/
def c4route : Route :=
  { path_pattern := "/x", host_pattern := some "h/*", methods := [],
    handler := .Static, priority := 50 }

/-- Claim C4 counterexample: the route's host pattern "h/*" is not equal to
the request host "h/abc", yet the route matches and is dispatched — the code
compares hosts with the same `pattern_matches` used for paths (here the
`/*`-prefix rule), not with string equality as the claim states. -/
theorem route_request_host_counterexample :
    c4route.host_pattern = some "h/*" ∧
    ("h/*" == "h/abc") = false ∧
    route_matches c4route "/x" .GET (some "h/abc") = true ∧
    route_request [c4route] .GET "/x" (some "h/abc") = .matched .Static := by
  exact ⟨rfl, by decide, by decide, by decide⟩

/-- Claim C4 (amended): over any priority-sorted route table, routing
dispatches to the handler of the first route in table order that matches,
and reports NotFound — an outcome, not an error — iff no route matches.  A
route matches iff its method set, when non-empty, contains the request
method; its host pattern, when present, matches the request host under
`pattern_matches` (which is plain string equality whenever the host pattern
neither ends in "/*" nor contains ":"); and its path pattern matches the
path.  `pattern_matches` holds iff the pattern equals the path, or the
pattern ends in "/*" and the path starts with the prefix before "/*" (that
rule is decisive for such patterns), or otherwise the pattern contains ":"
and matches segment-by-segment with equal segment counts. -/
theorem route_request_spec (routes : List Route) (method : Method)
    (path : String) (host : Option String)
    (hsorted : routes.Pairwise (fun a b => b.priority ≤ a.priority)) :
    (route_request routes method path host = .notFound ↔
      ∀ r ∈ routes, route_matches r path method host = false) ∧
    (∀ i : Fin routes.length,
      route_matches (routes.get i) path method host = true →
      (∀ k : Fin routes.length, (k : Nat) < (i : Nat) →
        route_matches (routes.get k) path method host = false) →
      route_request routes method path host = .matched (routes.get i).handler) ∧
    (∀ r : Route, route_matches r path method host = true ↔
      ((r.methods = [] ∨ method ∈ r.methods) ∧
       (∀ hp, r.host_pattern = some hp →
         ∃ h, host = some h ∧ pattern_matches hp h = true) ∧
       pattern_matches r.path_pattern path = true)) ∧
    (∀ pat p : String, pattern_matches pat p = true ↔
      (pat = p ∨
       (strEndsWith pat "/*" = true ∧ strStartsWith p (strDropRight pat 2) = true) ∨
       (strEndsWith pat "/*" = false ∧ strContains pat ':' = true ∧
        (strSplitOn pat '/').length = (strSplitOn p '/').length ∧
        ∀ q ∈ (strSplitOn pat '/').zip (strSplitOn p '/'),
          strStartsWith q.1 ":" = true ∨ q.1 = q.2))) := by
  refine ⟨?_, ?_, ?_, ?_⟩
  · unfold route_request
    rcases h : routes.find? (fun route => route_matches route path method host)
      with _ | r
    · rw [List.find?_eq_none] at h
      simp only [Bool.not_eq_true] at h
      simpa using h
    · have hr := List.find?_some h
      have hmem := List.mem_of_find?_eq_some h
      constructor
      · intro hcontra
        cases hcontra
      · intro hall
        rw [hall r hmem] at hr
        cases hr
  · intro i hp hmin
    unfold route_request
    rw [find?_first _ routes i hp hmin]
  · intro r
    unfold route_matches
    by_cases hm : r.methods.isEmpty = false ∧ r.methods.contains method = false
    · rw [if_pos hm]
      constructor
      · intro h
        cases h
      · rintro ⟨hmethods, -, -⟩
        exfalso
        rcases hmethods with h | h
        · rw [h] at hm
          simp at hm
        · have hc : r.methods.contains method = true := by
            simpa [List.contains] using h
          rw [hc] at hm
          simp at hm
    · rw [if_neg hm]
      have hmethods : r.methods = [] ∨ method ∈ r.methods := by
        by_cases he : r.methods.isEmpty = true
        · exact Or.inl (List.isEmpty_iff.mp he)
        · right
          rcases not_and_or.mp hm with h | h
          · exact absurd (by simpa using he) h
          · have hc : r.methods.contains method = true := by simpa using h
            simpa [List.contains] using hc
      rcases hhp : r.host_pattern with _ | hp0
      · simp only [hhp]
        constructor
        · intro hpath
          refine ⟨hmethods, ?_, hpath⟩
          intro hp hcon
          cases hcon
        · rintro ⟨-, -, hpath⟩
          exact hpath
      · rcases host with _ | h0
        · simp only [hhp]
          constructor
          · intro hcon
            cases hcon
          · rintro ⟨-, hhost, -⟩
            obtain ⟨h, hcon, -⟩ := hhost hp0 rfl
            cases hcon
        · simp only [hhp]
          constructor
          · intro hmatch
            by_cases hph : pattern_matches hp0 h0 = false
            · rw [if_pos hph] at hmatch
              cases hmatch
            · rw [if_neg hph] at hmatch
              have hph' : pattern_matches hp0 h0 = true := by simpa using hph
              refine ⟨hmethods, ?_, hmatch⟩
              intro hp hhp0
              exact ⟨h0, rfl, Option.some.inj hhp0 ▸ hph'⟩
          · rintro ⟨-, hhost, hpath⟩
            obtain ⟨h, hh, hph⟩ := hhost hp0 rfl
            cases hh
            rw [if_neg (by simp [hph])]
            exact hpath
  · intro pat p
    unfold pattern_matches
    by_cases h1 : (pat == p) = true
    · rw [if_pos h1]
      simp only [true_iff]
      exact Or.inl (by simpa using h1)
    · rw [if_neg h1]
      have hne : ¬ pat = p := by simpa using h1
      by_cases h2 : strEndsWith pat "/*" = true
      · rw [if_pos h2]
        constructor
        · intro h
          exact Or.inr (Or.inl ⟨h2, h⟩)
        · intro h
          rcases h with h | ⟨-, h⟩ | ⟨hf, -⟩
          · exact absurd h hne
          · exact h
          · rw [h2] at hf
            cases hf
      · rw [if_neg h2]
        have h2f : strEndsWith pat "/*" = false := by simpa using h2
        by_cases h3 : strContains pat ':' = true
        · rw [if_pos h3]
          by_cases h4 : (strSplitOn pat '/').length ≠ (strSplitOn p '/').length
          · rw [if_pos h4]
            constructor
            · intro h
              cases h
            · intro h
              rcases h with h | ⟨he, -⟩ | ⟨-, -, hlen, -⟩
              · exact absurd h hne
              · rw [h2f] at he
                cases he
              · exact absurd hlen h4
          · rw [if_neg h4]
            rw [List.all_eq_true]
            constructor
            · intro h
              refine Or.inr (Or.inr ⟨h2f, h3, by omega, ?_⟩)
              intro q hq
              rcases (by simpa using h q hq :
                  strStartsWith q.1 ":" = true ∨ q.1 = q.2) with hh | hh
              · exact Or.inl hh
              · exact Or.inr hh
            · intro h
              rcases h with h | ⟨he, -⟩ | ⟨-, -, -, hall⟩
              · exact absurd h hne
              · rw [h2f] at he
                cases he
              · intro q hq
                rcases hall q hq with hh | hh
                · simp [hh]
                · simp [hh]
        · rw [if_neg h3]
          have h3f : strContains pat ':' = false := by simpa using h3
          constructor
          · intro h
            cases h
          · intro h
            rcases h with h | ⟨he, -⟩ | ⟨-, hc, -⟩
            · exact absurd h hne
            · rw [h2f] at he
              cases he
            · rw [h3f] at hc
              cases hc

/-- Routes for the C4 witness: overlapping patterns with priorities
100, 50, 10, as in the spec's testable property. -/
def rHealth : Route :=
  { path_pattern := "/health", host_pattern := none, methods := [.GET],
    handler := .Health, priority := 100 }

def rProxy : Route :=
  { path_pattern := "/*", host_pattern := none, methods := [],
    handler := .Proxy "backend", priority := 50 }

def rStatic : Route :=
  { path_pattern := "/*", host_pattern := none, methods := [.GET, .HEAD],
    handler := .Static, priority := 10 }

/-- Claim C4 witness: on the sorted table {100, 50, 10} all three routes
match GET /health, and routing dispatches the priority-100 route first. -/
theorem route_request_spec_witness :
    route_request [rHealth, rProxy, rStatic] .GET "/health" none =
      .matched .Health := by
  have h := route_request_spec [rHealth, rProxy, rStatic] .GET "/health" none
    (by decide)
  exact h.2.1 ⟨0, by decide⟩ (by decide) (fun k hk => absurd hk (Nat.not_lt_zero _))

/-- Upstreams used by the C3 counterexample: two members share the pool name
"a"; the first is unhealthy, the second healthy. -/
def upASick : Upstream :=
  { mkUpstream "a" "10.0.0.1" 8080 1 3 with healthy := false }

def upAWell : Upstream := mkUpstream "a" "10.0.0.2" 8080 1 3

def upB : Upstream := mkUpstream "b" "10.0.0.3" 8080 1 3

/-- Claim C3 counterexample: with pool name "a" (non-empty, not "*"), the
member `upAWell` named "a" exists and is healthy, yet `select_upstream`
returns `upB` (name "b"): `find?` stops at the first member named "a", which
is unhealthy, so the code falls through to round-robin over the healthy set
(counter 1 picks index 1), not to the healthy same-named member. -/
theorem select_upstream_pinning_counterexample :
    upAWell.name = "a" ∧ upAWell.healthy = true ∧
    upAWell ∈ [upASick, upAWell, upB] ∧
    select_upstream .RoundRobin 1 0 "a" [upASick, upAWell, upB] = .ok upB ∧
    (upB.name == "a") = false := by
  refine ⟨rfl, rfl, by simp, ?_, by decide⟩
  rfl

/-- Claim C3 (amended): if the pool name is non-empty, not "*", and the
first member carrying that name is currently healthy, `select_upstream`
returns that member directly, bypassing load balancing; otherwise it
restricts to the healthy members, and if none is healthy it returns the
NoHealthyUpstream error rather than any member. -/
theorem select_upstream_spec (method : LoadBalancingMethod) (counter rand : Nat)
    (upstream_name : String) (upstreams : List Upstream) :
    (∀ u, upstream_name ≠ "" → upstream_name ≠ "*" →
      upstreams.find? (fun v => v.name == upstream_name) = some u →
      u.healthy = true →
      select_upstream method counter rand upstream_name upstreams = .ok u) ∧
    ((∀ u ∈ upstreams, u.healthy = false) →
      select_upstream method counter rand upstream_name upstreams =
        .noHealthyUpstream) := by
  constructor
  · intro u h1 h2 hfind hhealthy
    simp only [select_upstream, if_pos (And.intro h1 h2), hfind, hhealthy]
    simp
  · intro hall
    have hfilter : upstreams.filter (fun u => u.healthy) = [] := by
      rw [List.filter_eq_nil_iff]
      intro u hu
      simp [hall u hu]
    simp only [select_upstream]
    have hpinned :
        (if upstream_name ≠ "" ∧ upstream_name ≠ "*" then
          match upstreams.find? (fun u => u.name == upstream_name) with
          | some u => if u.healthy then some u else none
          | none => none
        else none) = none := by
      split
      · cases hfind : upstreams.find? (fun u => u.name == upstream_name) with
        | none => rfl
        | some u =>
          have hu : u ∈ upstreams := List.mem_of_find?_eq_some hfind
          simp [hall u hu]
      · rfl
    rw [hpinned, hfilter]
    rfl

/-- Claim C3 witness: healthy pinned member "b" is returned directly, and a
pool whose members are all unhealthy yields NoHealthyUpstream. -/
theorem select_upstream_spec_witness :
    select_upstream .RoundRobin 7 0 "b" [upASick, upAWell, upB] = .ok upB ∧
    select_upstream .RoundRobin 7 0 "*" [upASick] = .noHealthyUpstream := by
  constructor
  · exact (select_upstream_spec .RoundRobin 7 0 "b" [upASick, upAWell, upB]).1
      upB (by decide) (by decide) (by rfl) rfl
  · exact (select_upstream_spec .RoundRobin 7 0 "*" [upASick]).2
      (by intro u hu; simp at hu; rw [hu]; rfl)

/-- Claim C10 counterexample: two healthy members with the config-valid
`u32` weight `2 ^ 31` have a positive mathematical weight sum (`2 ^ 32`),
yet the `u32` sum computed by the source wraps to zero and the program
panics at `counter % 0` (in a release build; a debug build already panics
on the overflowing addition), modelled as `none`, instead of selecting a
member as the claim's "positive total weight" precondition predicts. -/
theorem weighted_selection_overflow_counterexample :
    (([{ upAWell with weight := 2 ^ 31 }, { upB with weight := 2 ^ 31 }] : List Upstream).map
        (fun u => u.weight)).sum = 2 ^ 32 ∧
    0 < (2 : Nat) ^ 32 ∧
    totalWeight [{ upAWell with weight := 2 ^ 31 }, { upB with weight := 2 ^ 31 }] = 0 ∧
    LoadBalancer.select .Weighted 0 0
      [{ upAWell with weight := 2 ^ 31 }, { upB with weight := 2 ^ 31 }] = none := by
  refine ⟨by decide, by decide, by decide, by decide⟩

/-- Claim C10 (amended): whenever the members' `u32` weight sum (the
mathematical sum wrapped modulo `2 ^ 32`, as `sum::<u32>()` computes it) is
positive, the truncated counter reduced modulo that sum is strictly below
it, the subtraction walk of the `Weighted` arm terminates at some member of
the list, and the trailing fallback branch is never the one that produces
the result; when the wrapped sum is zero — in particular when every
member's weight is zero, but also when the weights sum to a positive
multiple of `2 ^ 32` — the modulo is a division by zero, a Rust panic,
modelled as `none`. -/
theorem weighted_selection_total_u32 (upstreams : List Upstream)
    (counter rand : Nat) :
    (0 < totalWeight upstreams →
      (counter % 2 ^ 32) % totalWeight upstreams < totalWeight upstreams ∧
      ∃ u, u ∈ upstreams ∧
        weightedWalk ((counter % 2 ^ 32) % totalWeight upstreams) upstreams = some u ∧
        LoadBalancer.select .Weighted counter rand upstreams = some u) ∧
    (totalWeight upstreams = 0 →
      LoadBalancer.select .Weighted counter rand upstreams = none) ∧
    ((∀ u ∈ upstreams, u.weight = 0) → totalWeight upstreams = 0) := by
  have hwalk : ∀ (l : List Upstream) (target : Nat),
      target < (l.map (fun u => u.weight)).sum →
      ∃ u, u ∈ l ∧ weightedWalk target l = some u := by
    intro l
    induction l with
    | nil =>
      intro target htl
      simp at htl
    | cons v rest ih =>
      intro target htl
      by_cases hlt : target < v.weight
      · exact ⟨v, by simp, by simp [weightedWalk, hlt]⟩
      · have hrest : target - v.weight < (rest.map (fun u => u.weight)).sum := by
          simp only [List.map_cons, List.sum_cons] at htl
          omega
        obtain ⟨u, hu, hw⟩ := ih (target - v.weight) hrest
        exact ⟨u, by simp [hu], by simp [weightedWalk, hlt, hw]⟩
  refine ⟨?_, ?_, ?_⟩
  · intro hpos
    have hlt : (counter % 2 ^ 32) % totalWeight upstreams < totalWeight upstreams :=
      Nat.mod_lt _ hpos
    have hle : totalWeight upstreams ≤ (upstreams.map (fun u => u.weight)).sum :=
      Nat.mod_le _ _
    obtain ⟨u, hu, hw⟩ := hwalk upstreams _ (lt_of_lt_of_le hlt hle)
    refine ⟨hlt, u, hu, hw, ?_⟩
    simp only [LoadBalancer.select, if_neg (by omega : ¬ totalWeight upstreams = 0), hw]
  · intro h0
    simp [LoadBalancer.select, h0]
  · intro hzero
    have h0 : (upstreams.map (fun u => u.weight)).sum = 0 := by
      apply List.sum_eq_zero
      intro x hx
      obtain ⟨u, hu, hux⟩ := List.mem_map.mp hx
      rw [← hux]
      exact hzero u hu
    simp [totalWeight, h0]

/-- Claim C10 witness: with weights 2 and 1 and counter 5 the wrapped sum is
3, the walk (target `5 % 3 = 2`) selects the second member, and with all
weights zero the `Weighted` arm is the modelled division-by-zero panic. -/
theorem weighted_selection_total_u32_witness :
    LoadBalancer.select .Weighted 5 0
      [{ upAWell with weight := 2 }, { upB with weight := 1 }] = some { upB with weight := 1 } ∧
    LoadBalancer.select .Weighted 5 0
      [{ upAWell with weight := 0 }, { upB with weight := 0 }] = none := by
  constructor
  · obtain ⟨-, u, -, hw, hs⟩ :=
      (weighted_selection_total_u32
        [{ upAWell with weight := 2 }, { upB with weight := 1 }] 5 0).1 (by decide)
    have hval : weightedWalk ((5 % 2 ^ 32) % totalWeight
        [{ upAWell with weight := 2 }, { upB with weight := 1 }])
        [{ upAWell with weight := 2 }, { upB with weight := 1 }] =
        some { upB with weight := 1 } := by decide
    rw [hval] at hw
    exact hs.trans hw.symm
  · exact (weighted_selection_total_u32
      [{ upAWell with weight := 0 }, { upB with weight := 0 }] 5 0).2.1 (by decide)

/-- Shifting a predicate by one does not change its count over `range N`
when the predicate agrees at `N` and `0`. -/
theorem countP_range_shift (p : Nat → Bool) (N : Nat) (hpN : p N = p 0) :
    (List.range N).countP (fun i => p (i + 1)) = (List.range N).countP p := by
  have h1 : (List.range (N + 1)).countP p
      = (List.range N).countP p + (if p N then 1 else 0) := by
    rw [List.range_succ, List.countP_append]
    simp [List.countP_cons]
  have h2 : (List.range (N + 1)).countP p
      = (List.range N).countP (fun i => p (i + 1)) + (if p 0 then 1 else 0) := by
    rw [List.range_succ_eq_map, List.countP_cons, List.countP_map]
    rfl
  rw [hpN] at h1
  omega

/-- Exactly one `i` in `range N` satisfies `(c + i) % N = j` when `j < N`. -/
theorem countP_mod_range_one (N j : Nat) (hN : 0 < N) (hj : j < N) :
    ∀ c, (List.range N).countP (fun i => decide ((c + i) % N = j)) = 1 := by
  intro c
  induction c with
  | zero =>
    have hcongr : (List.range N).countP (fun i => decide ((0 + i) % N = j))
        = (List.range N).countP (fun i => i == j) := by
      apply List.countP_congr
      intro x hx
      have hxN : x < N := List.mem_range.mp hx
      simp [Nat.mod_eq_of_lt hxN, Nat.zero_add]
    rw [hcongr, ← List.count_eq_countP]
    exact List.count_eq_one_of_mem (List.nodup_range N) (List.mem_range.mpr hj)
  | succ c ih =>
    have hpn : decide ((c + N) % N = j) = decide ((c + 0) % N = j) := by
      simp [Nat.add_mod_right]
    have hshift := countP_range_shift (fun i => decide ((c + i) % N = j)) N hpn
    calc (List.range N).countP (fun i => decide ((c + 1 + i) % N = j))
        = (List.range N).countP (fun i => decide ((c + (i + 1)) % N = j)) := by
          apply List.countP_congr
          intro x hx
          rw [show c + 1 + x = c + (x + 1) from by omega]
      _ = (List.range N).countP (fun i => decide ((c + i) % N = j)) := hshift
      _ = 1 := ih

/-- Over `N * k` consecutive counter values, the residue class of `j`
modulo `N` is hit exactly `k` times. -/
theorem countP_mod_range_mul (N j : Nat) (hN : 0 < N) (hj : j < N) :
    ∀ (k c : Nat),
      (List.range (N * k)).countP (fun i => decide ((c + i) % N = j)) = k := by
  intro k
  induction k with
  | zero =>
    intro c
    simp
  | succ k ih =>
    intro c
    rw [show N * (k + 1) = N * k + N from by ring, List.range_add,
      List.countP_append, ih c, List.countP_map]
    have hone : (List.range N).countP
        ((fun i => decide ((c + i) % N = j)) ∘ (fun i => N * k + i)) = 1 := by
      calc (List.range N).countP
            ((fun i => decide ((c + i) % N = j)) ∘ (fun i => N * k + i))
          = (List.range N).countP (fun i => decide ((c + N * k + i) % N = j)) := by
            apply List.countP_congr
            intro x hx
            simp only [Function.comp]
            rw [show c + (N * k + x) = c + N * k + x from by omega]
        _ = 1 := countP_mod_range_one N j hN hj (c + N * k)
    rw [hone]

/-- Claim C5: for any duplicate-free list of `N` healthy, equal-weight
members and any `M` that is a multiple of `N`, the `M` consecutive
round-robin selections with counter values `c0, c0 + 1, …, c0 + M - 1`
(each selection reads and post-increments the shared counter and indexes
`counter % N`) select each member exactly `M / N` times. -/
theorem round_robin_uniform (ups : List Upstream) (M c0 j : Nat)
    (hnd : ups.Nodup) (hj : j < ups.length) (hM : ups.length ∣ M)
    (hhealthy : ∀ u ∈ ups, u.healthy = true)
    (hweight : ∀ u ∈ ups, u.weight = 1) :
    ((List.range M).map
        (fun i => LoadBalancer.select .RoundRobin (c0 + i) 0 ups)).count
      (some ups[j]) = M / ups.length := by
  obtain ⟨k, hk⟩ := hM
  have hN : 0 < ups.length := lt_of_le_of_lt (Nat.zero_le j) hj
  subst hk
  rw [List.count_eq_countP, List.countP_map]
  have hpt : ∀ x ∈ List.range (ups.length * k),
      ((fun o => o == some ups[j]) ∘
          (fun i => LoadBalancer.select .RoundRobin (c0 + i) 0 ups)) x
        ↔ (fun i => decide ((c0 + i) % ups.length = j)) x := by
    intro x hx
    have hlt : (c0 + x) % ups.length < ups.length := Nat.mod_lt _ hN
    simp only [Function.comp, LoadBalancer.select]
    rw [List.getElem?_eq_getElem hlt]
    simp only [beq_iff_eq, Option.some.injEq, decide_eq_true_eq]
    exact hnd.getElem_inj_iff
  rw [List.countP_congr hpt, countP_mod_range_mul ups.length j hN hj k c0]
  exact (Nat.mul_div_cancel_left k hN).symm

/-- Claim C5 witness: two distinct healthy members, four selections starting
at counter 3: each member is selected exactly 4 / 2 = 2 times. -/
theorem round_robin_uniform_witness :
    ((List.range 4).map
        (fun i => LoadBalancer.select .RoundRobin (3 + i) 0 [upAWell, upB])).count
      (some [upAWell, upB][0]) = 4 / 2 := by
  have hnd : [upAWell, upB].Nodup := by decide
  have hj : 0 < [upAWell, upB].length := by decide
  have hM : [upAWell, upB].length ∣ 4 := ⟨2, rfl⟩
  have hh : ∀ u ∈ [upAWell, upB], u.healthy = true := by decide
  have hw : ∀ u ∈ [upAWell, upB], u.weight = 1 := by decide
  exact round_robin_uniform [upAWell, upB] 4 3 0 hnd hj hM hh hw

/-- Claim C2 witness: a fresh member with `max_fails = 2` is Healthy through
one failure, Unhealthy after the second, and Healthy again after one success. -/
theorem health_check_state_machine_witness :
    (probeFailIter (mkUpstream "api" "10.0.0.1" 8080 1 2) 1).healthy = true ∧
    (probeFailIter (mkUpstream "api" "10.0.0.1" 8080 1 2) 2).healthy = false ∧
    (probeStep (probeFailIter (mkUpstream "api" "10.0.0.1" 8080 1 2) 2) true).healthy = true ∧
    (probeStep (probeFailIter (mkUpstream "api" "10.0.0.1" 8080 1 2) 2) true).current_fails = 0 := by
  have h := health_check_state_machine "api" "10.0.0.1" 8080 1 2 (by decide)
  refine ⟨(h.2.1 1 (by decide)).1, h.2.2.1.1, ?_, ?_⟩
  · exact (h.2.2.2.1 (probeFailIter (mkUpstream "api" "10.0.0.1" 8080 1 2) 2)).2
  · exact (h.2.2.2.1 (probeFailIter (mkUpstream "api" "10.0.0.1" 8080 1 2) 2)).1

end Wraith
